import Mathlib

/-!
Shallow embedding of the polymarket-bot trading core: the TEMA trend
estimator (src/trend.py), the calibration bucketing and win-rate
aggregation (src/calibrate.py), the order / position lifecycle of the
live trader (src/live_trader.py), and the TEMA exit monitor of the
entry observer (src/entry_observer.py). Prices, timestamps and
percentages are modelled as rationals; Python None is Option.none.
-/

namespace PolymarketBot

/-! Part 1: src/calibrate.py — bucket definitions, classification and
the win-rate table. -/

/-- MOVE_BINS from src/calibrate.py lines 50-55: (lo, hi, label). -/
def MOVE_BINS : List (ℚ × ℚ × String) :=
  [(3/100, 5/100, "0.03-0.05"),
   (5/100, 10/100, "0.05-0.10"),
   (10/100, 20/100, "0.10-0.20"),
   (20/100, 999, "0.20+")]

/-- ELAPSED_BINS from src/calibrate.py lines 57-62. -/
def ELAPSED_BINS : List (ℚ × ℚ × String) :=
  [(60, 180, "60-180"),
   (180, 420, "180-420"),
   (420, 600, "420-600"),
   (600, 841, "600-840")]

/-- MIN_SAMPLES from src/calibrate.py line 64. -/
def MIN_SAMPLES : ℕ := 30

/-- The shared loop of classify_move and classify_elapsed: return the label
of the first bin with lo <= x < hi, else None. -/
def classifyBins : List (ℚ × ℚ × String) → ℚ → Option String
  | [], _ => none
  | (lo, hi, label) :: rest, x =>
      if lo ≤ x ∧ x < hi then some label else classifyBins rest x

/-- classify_move from src/calibrate.py lines 333-337. -/
def classify_move (abs_pct : ℚ) : Option String := classifyBins MOVE_BINS abs_pct

/-- classify_elapsed from src/calibrate.py lines 340-344. -/
def classify_elapsed (secs : ℚ) : Option String := classifyBins ELAPSED_BINS secs

/-- The fields of one calibration observation that compute_table reads
(src/calibrate.py lines 308-318 build the full record). -/
structure Obs where
  abs_move : ℚ
  elapsed : ℚ
  won : Bool
deriving DecidableEq

/-- One bucket accumulator: the defaultdict value of compute_table. -/
structure BucketStat where
  wins : ℕ
  total : ℕ
deriving DecidableEq

/-- One output cell of compute_table. -/
structure Cell where
  win_rate : Option ℚ
  count : ℕ
deriving DecidableEq

/-- Update the association list the way defaultdict plus in-place increment
does: bump the existing entry, or append a fresh one. -/
def bumpBucket : List ((String × String) × BucketStat) → (String × String) → Bool →
    List ((String × String) × BucketStat)
  | [], key, won => [(key, ⟨if won then 1 else 0, 1⟩)]
  | (k, s) :: rest, key, won =>
      if k = key then (k, ⟨s.wins + (if won then 1 else 0), s.total + 1⟩) :: rest
      else (k, s) :: bumpBucket rest key won

/-- round(x, 4). Python rounds floats half-to-even; the values reaching it
here are exact ratios wins/total, modelled exactly in ℚ with half-up
rounding, which only differs on exact half-way ties at the fifth decimal. -/
def round4 (q : ℚ) : ℚ := ((round (q * 10000) : ℤ) : ℚ) / 10000

/-- compute_table from src/calibrate.py lines 347-372. The optional
filter_fn is the optional argument of the Python function. The output is
the table as an association list keyed by (move bucket, elapsed bucket).
The Python cell expression is round(wr, 4) if wr else None, so a wr that
is None or exactly 0 both produce None. -/
def compute_table (filter_fn : Option (Obs → Bool)) (observations : List Obs) :
    List ((String × String) × Cell) :=
  let buckets := observations.foldl (fun acc obs =>
    let skip : Bool :=
      match filter_fn with
      | some f => !(f obs)
      | none => false
    if skip then acc
    else
      match classify_move obs.abs_move, classify_elapsed obs.elapsed with
      | some mb, some eb => bumpBucket acc (mb, eb) obs.won
      | _, _ => acc) []
  buckets.map (fun ks =>
    let s := ks.2
    let wr : Option ℚ := if 0 < s.total then some ((s.wins : ℚ) / (s.total : ℚ)) else none
    let out : Option ℚ :=
      match wr with
      | some v => if v = 0 then none else some (round4 v)
      | none => none
    (ks.1, ⟨out, s.total⟩))

/-! Part 2: src/trend.py — EMA, TEMA and the TrendTracker. -/

/-- The recurrence loop of _calc_ema (src/trend.py lines 53-54): each new
value is v * k + prev * (1 - k) where prev is the previously appended one. -/
def emaFrom (k : ℚ) : ℚ → List ℚ → List ℚ
  | _, [] => []
  | prev, v :: rest => (v * k + prev * (1 - k)) :: emaFrom k (v * k + prev * (1 - k)) rest

/-- _calc_ema from src/trend.py lines 43-56: with fewer than period values
the whole output is None; otherwise period - 1 Nones, then the SMA seed,
then the recurrence. -/
def calc_ema (values : List ℚ) (period : ℕ) : List (Option ℚ) :=
  if values.length < period then List.replicate values.length none
  else
    let k : ℚ := 2 / ((period : ℚ) + 1)
    let seed : ℚ := (values.take period).sum / (period : ℚ)
    List.replicate (period - 1) none ++
      (some seed :: (emaFrom k seed (values.drop period)).map some)

/-- calc_tema from src/trend.py lines 59-90. -/
def calc_tema (closes : List ℚ) (period : ℕ) : Option ℚ :=
  if closes.length < period * 3 then none
  else
    let ema1 := calc_ema closes period
    let ema1_clean := ema1.filterMap id
    let ema2 := calc_ema ema1_clean period
    let ema2_clean := ema2.filterMap id
    let ema3 := calc_ema ema2_clean period
    match ema3.getLast? with
    | none => none
    | some none => none
    | some (some e3) =>
        match ema1.getLast?, ema2.getLast? with
        | some (some e1), some (some e2) => some (3 * e1 - 3 * e2 + e3)
        | _, _ => none

/-- The state of a TrendTracker (src/trend.py lines 94-110). The two
periods are taken as given positive arguments; the Python constructor
substitutes module defaults for falsy arguments. -/
structure TrendTracker where
  candle_interval : ℚ
  fast_period : ℕ
  slow_period : ℕ
  min_candles : ℕ
  maxlen : ℕ
  closes : List ℚ
  current_candle_start : ℚ
  current_candle_close : Option ℚ
  tema_fast : Option ℚ
  tema_slow : Option ℚ
  ready : Bool
deriving DecidableEq

/-- TrendTracker.__init__ (src/trend.py lines 94-110):
min_candles = slow_period * 3 + 10, deque maxlen = min_candles + 50. -/
def TrendTracker.init (candle_interval : ℚ) (fast_period slow_period : ℕ) : TrendTracker :=
  { candle_interval := candle_interval
    fast_period := fast_period
    slow_period := slow_period
    min_candles := slow_period * 3 + 10
    maxlen := slow_period * 3 + 10 + 50
    closes := []
    current_candle_start := 0
    current_candle_close := none
    tema_fast := none
    tema_slow := none
    ready := false }

/-- collections.deque(maxlen=m).append: append on the right, evicting from
the left whatever exceeds m. -/
def dequeAppend (maxlen : ℕ) (l : List ℚ) (x : ℚ) : List ℚ :=
  let l2 := l ++ [x]
  l2.drop (l2.length - maxlen)

/-- _get_candle_start (src/trend.py lines 112-115) for an explicitly given
timestamp in seconds. -/
def getCandleStart (candle_interval : ℚ) (ts : ℚ) : ℚ :=
  ((⌊ts / candle_interval⌋ : ℤ) : ℚ) * candle_interval

/-- TrendTracker._recalc (src/trend.py lines 192-197). -/
def TrendTracker.recalc (t : TrendTracker) : TrendTracker :=
  let tf := calc_tema t.closes t.fast_period
  let tsl := calc_tema t.closes t.slow_period
  { t with tema_fast := tf, tema_slow := tsl, ready := tf.isSome && tsl.isSome }

/-- TrendTracker.update_price (src/trend.py lines 168-190), for a call that
passes an explicit millisecond timestamp (a falsy ts_ms would read the wall
clock, which is outside the model). -/
def TrendTracker.update_price (t : TrendTracker) (price : ℚ) (ts_ms : ℚ) : TrendTracker :=
  if t.current_candle_start = 0 then
    { t with current_candle_start := getCandleStart t.candle_interval (ts_ms / 1000),
             current_candle_close := some price }
  else if t.current_candle_start < getCandleStart t.candle_interval (ts_ms / 1000) then
    match t.current_candle_close with
    | some c =>
        { TrendTracker.recalc { t with closes := dequeAppend t.maxlen t.closes c } with
            current_candle_start := getCandleStart t.candle_interval (ts_ms / 1000),
            current_candle_close := some price }
    | none =>
        { t with current_candle_start := getCandleStart t.candle_interval (ts_ms / 1000),
                 current_candle_close := some price }
  else
    { t with current_candle_close := some price }

/-- A sequence of price ticks (price, ts_ms) applied in order. -/
def TrendTracker.applyTicks (t : TrendTracker) : List (ℚ × ℚ) → TrendTracker
  | [] => t
  | (p, ts) :: rest => TrendTracker.applyTicks (t.update_price p ts) rest

/-! Part 3: src/live_trader.py — fill confirmation, position monitoring,
sell retry ceiling, circuit breaker. -/

/-- One poll response of the CLOB order endpoint, as _confirm_fill reads it
(src/live_trader.py lines 691-709): size_matched and original_size default
to 0, the two matched-price fields may be absent, price is read with
default 0 (for our GTC orders it is the submitted limit price). -/
structure OrderResp where
  size_matched : ℚ
  original_size : ℚ
  average_matched_price : Option ℚ
  matched_price : Option ℚ
  price : ℚ
  status : String
deriving DecidableEq

/-- Python a or b: the value of a when a is truthy (present and nonzero),
else b. -/
def orTruthy (a : Option ℚ) (b : ℚ) : ℚ :=
  match a with
  | some x => if x = 0 then b else x
  | none => b

/-- The price extraction of _confirm_fill (src/live_trader.py lines
694-699): average_matched_price or matched_price or price. -/
def extractPrice (o : OrderResp) : ℚ :=
  orTruthy o.average_matched_price (orTruthy o.matched_price o.price)

/-- _confirm_fill (src/live_trader.py lines 670-737) over an abstract
sequence of poll responses: one list entry per loop iteration before the
max_wait deadline, none standing for a falsy order payload or a poll
exception (both just sleep and retry). An exhausted list is the timeout
path, which cancels the order and returns (0, 0). The counter is the
number of attempts already made before the call. -/
def confirmFill : ℕ → List (Option OrderResp) → ℚ × ℚ
  | _, [] => (0, 0)
  | attempts, none :: rest => confirmFill (attempts + 1) rest
  | attempts, some o :: rest =>
      if 0 < o.size_matched then (o.size_matched, extractPrice o)
      else if o.status = "CANCELED" ∨ o.status = "CANCELLED" ∨ o.status = "EXPIRED" then (0, 0)
      else if o.status = "MATCHED" ∧ o.size_matched = 0 ∧ 5 ≤ attempts + 1 then
        (o.original_size, extractPrice o)
      else confirmFill (attempts + 1) rest

/-- The inputs _monitor_position reads (src/live_trader.py lines 806-846). -/
structure MonitorCtx where
  remaining : ℚ
  exit_before_end : ℚ
  now : ℚ
  last_monitor_ts : ℚ
  monitor_interval : ℚ
  current_price : ℚ
  entry_price : ℚ
  take_profit_pct : ℚ
  stop_loss_pct : ℚ
deriving DecidableEq

/-- What one _monitor_position call decides to do. -/
inductive MonitorStep where
  | sellForcedExit
  | throttled
  | noPrice
  | sellTakeProfit
  | sellStopLoss
  | hold
deriving DecidableEq

/-- _monitor_position (src/live_trader.py lines 806-846): forced exit
first, then the monitor-interval throttle, then the CLOB midpoint check
and the take-profit / stop-loss triggers. -/
def monitorPosition (m : MonitorCtx) : MonitorStep :=
  if m.remaining ≤ m.exit_before_end then MonitorStep.sellForcedExit
  else if m.now - m.last_monitor_ts < m.monitor_interval then MonitorStep.throttled
  else if m.current_price ≤ 0 then MonitorStep.noPrice
  else
    let pnl_pct := (m.current_price - m.entry_price) / m.entry_price
    if m.take_profit_pct ≤ pnl_pct then MonitorStep.sellTakeProfit
    else if pnl_pct ≤ -m.stop_loss_pct then MonitorStep.sellStopLoss
    else MonitorStep.hold

/-- MAX_SELL_ATTEMPTS from src/live_trader.py line 854. -/
def MAX_SELL_ATTEMPTS : ℕ := 3

/-- What the attempt-ceiling guard at the top of _sell_position decides. -/
inductive SellStep where
  | gaveUp (exited : Bool) (exit_reason : String) (exit_pnl : ℚ) (sell_attempts : ℕ)
  | proceed (sell_attempts : ℕ)
deriving DecidableEq

/-- The head of _sell_position (src/live_trader.py lines 852-862):
increment iv.sell_attempts, and above MAX_SELL_ATTEMPTS place no order and
force-mark the position exited with reason suffixed _failed and zero P&L;
otherwise proceed into the sell path proper. -/
def sellPositionGuard (sell_attempts : ℕ) (reason : String) : SellStep :=
  if MAX_SELL_ATTEMPTS < sell_attempts + 1 then
    SellStep.gaveUp true (reason ++ "_failed") 0 (sell_attempts + 1)
  else
    SellStep.proceed (sell_attempts + 1)

/-- The per-tick interval fields _on_trade_inner reads for its monitor /
entry control flow (src/live_trader.py lines 425-459). -/
structure TickView where
  trade_taken : Bool
  has_trade : Bool
  exited : Bool
  elapsed : ℚ
  move_pct : ℚ
  last_eval_half_min : ℤ
deriving DecidableEq

/-- The process-wide trading state the control flow consults. -/
structure TraderRisk where
  circuit_breaker : Bool
  session_pnl : ℚ
  single : Bool
  trade_placed : Bool
deriving DecidableEq

/-- The configuration fields involved in the entry gates. -/
structure TraderCfg where
  entry_window_lo : ℚ
  entry_window_hi : ℚ
  min_move_pct : ℚ
  strong_move_pct : ℚ
  max_session_loss : ℚ
deriving DecidableEq

/-- The externally visible actions a tick can trigger. -/
inductive TickAction where
  | monitor
  | evaluate (signal : String) (strength : String)
deriving DecidableEq

/-- The monitor call of _on_trade_inner (src/live_trader.py lines
425-427): an open, unexited position is monitored on every tick, before
the circuit breaker is even consulted. -/
def monitorActions (iv : TickView) : List TickAction :=
  if iv.trade_taken && iv.has_trade && !iv.exited then [TickAction.monitor] else []

/-- The monitor / circuit-breaker / entry control flow of _on_trade_inner
(src/live_trader.py lines 425-459): monitor an open unexited position,
then return early when the circuit breaker is set, then the entry gates
(already traded, entry window, single-trade mode, move strength, 30-second
evaluation throttle) before _evaluate is reached. -/
def onTradeActions (cfg : TraderCfg) (s : TraderRisk) (iv : TickView) : List TickAction :=
  if s.circuit_breaker then monitorActions iv
  else if iv.trade_taken ∨ iv.elapsed < cfg.entry_window_lo ∨
      cfg.entry_window_hi < iv.elapsed then monitorActions iv
  else if s.single && s.trade_placed then monitorActions iv
  else if cfg.strong_move_pct ≤ |iv.move_pct| then
    if (⌊iv.elapsed⌋ / 30 : ℤ) = iv.last_eval_half_min then monitorActions iv
    else
      monitorActions iv ++
        [TickAction.evaluate (if 0 < iv.move_pct then "Up" else "Down") "STRONG"]
  else if cfg.min_move_pct ≤ |iv.move_pct| ∧ 420 < iv.elapsed then
    if (⌊iv.elapsed⌋ / 30 : ℤ) = iv.last_eval_half_min then monitorActions iv
    else
      monitorActions iv ++
        [TickAction.evaluate (if 0 < iv.move_pct then "Up" else "Down") "MODERATE"]
  else monitorActions iv

/-- The session P&L / circuit-breaker update at the end of _resolve
(src/live_trader.py lines 1043-1048): add the resolved P&L and set the
one-way breaker when the total reaches -max_session_loss. -/
def resolveStep (max_session_loss : ℚ) (s : TraderRisk) (pnl : ℚ) : TraderRisk :=
  { s with
    session_pnl := s.session_pnl + pnl
    circuit_breaker := s.circuit_breaker || decide (s.session_pnl + pnl ≤ -max_session_loss) }

/-- One event of a run: a price tick, or the resolution of a completed
interval trade. -/
inductive TraderEvent where
  | tick (iv : TickView)
  | resolve (pnl : ℚ)

/-- Run a sequence of events, collecting the actions every tick triggers.
Ticks leave the risk state unchanged; resolutions apply resolveStep. -/
def runEvents (cfg : TraderCfg) (s : TraderRisk) :
    List TraderEvent → TraderRisk × List TickAction
  | [] => (s, [])
  | TraderEvent.tick iv :: rest =>
      ((runEvents cfg s rest).1, onTradeActions cfg s iv ++ (runEvents cfg s rest).2)
  | TraderEvent.resolve pnl :: rest =>
      runEvents cfg (resolveStep cfg.max_session_loss s pnl) rest

/-! Part 4: src/entry_observer.py — the TEMA trend-reversal exit monitor
with the cushion skip. -/

/-- EXIT_MONITOR_START from src/entry_observer.py line 40. -/
def EXIT_MONITOR_START : ℚ := 600

/-- EXIT_CUSHION_PCT from src/entry_observer.py line 41. -/
def EXIT_CUSHION_PCT : ℚ := 5/100

/-- The entry fields the TEMA exit monitor mutates. -/
structure EntryState where
  exited : Bool
  prev_exit_tema : Option String
deriving DecidableEq

/-- The per-tick inputs of the exit monitor. -/
structure ObsTick where
  exit_trend : String
  elapsed : ℚ
  move_pct : ℚ
deriving DecidableEq

/-- The cushion computed at a detected crossing (src/entry_observer.py
lines 300-304): the absolute move versus open when it is in the favor of
the position, else 0. -/
def cushionOf (entry_dir : String) (move_pct : ℚ) : ℚ :=
  if (entry_dir = "Up" ∧ 0 < move_pct) ∨ (entry_dir = "Down" ∧ move_pct < 0) then |move_pct|
  else 0

/-- The TEMA exit block of EntryObserver._on_trade (src/entry_observer.py
lines 284-333): after EXIT_MONITOR_START, a crossing (previous trend seen,
current trend not Neutral and different) against the position exits unless
the cushion exceeds EXIT_CUSHION_PCT, in which case the tick is a cushion
skip; the last-seen-trend marker is updated from any non-Neutral trend
except on a cushion skip. The Python skipped_cushion flag is rendered as
the branch structure: the cushion-skip branch leaves both fields
unchanged, the firing branch sets exited and the marker (the trend is
non-Neutral at any crossing), and with no opposing crossing the marker
alone tracks the latest non-Neutral trend. -/
def temaExitStep (entry_dir : String) (st : EntryState) (t : ObsTick) : EntryState :=
  if !st.exited ∧ EXIT_MONITOR_START ≤ t.elapsed then
    if (st.prev_exit_tema ≠ none ∧ t.exit_trend ≠ "Neutral" ∧
          some t.exit_trend ≠ st.prev_exit_tema) ∧
        ((entry_dir = "Up" ∧ t.exit_trend = "Down") ∨
          (entry_dir = "Down" ∧ t.exit_trend = "Up")) then
      if EXIT_CUSHION_PCT < cushionOf entry_dir t.move_pct then
        st
      else
        { exited := true, prev_exit_tema := some t.exit_trend }
    else
      if t.exit_trend ≠ "Neutral" then { st with prev_exit_tema := some t.exit_trend } else st
  else st

/-! Part 5: facts about calc_ema and calc_tema. -/

theorem emaFrom_length (k : ℚ) (prev : ℚ) (l : List ℚ) :
    (emaFrom k prev l).length = l.length := by
  induction l generalizing prev with
  | nil => rfl
  | cons v rest ih => simp [emaFrom, ih]

theorem filterMap_id_replicate_none (n : ℕ) :
    (List.replicate n (none : Option ℚ)).filterMap id = [] := by
  induction n with
  | zero => rfl
  | succ m ih => simp [List.replicate_succ, ih]

theorem filterMap_id_map_some (l : List ℚ) : (l.map some).filterMap id = l := by
  induction l with
  | nil => rfl
  | cons a rest ih => simp [ih]

theorem calc_ema_length (values : List ℚ) (period : ℕ) (hp : 1 ≤ period) :
    (calc_ema values period).length = values.length := by
  unfold calc_ema
  split_ifs with h
  · simp
  · push_neg at h
    simp only [List.length_append, List.length_replicate, List.length_cons,
      List.length_map, emaFrom_length, List.length_drop]
    omega

theorem calc_ema_clean_eq (values : List ℚ) (period : ℕ) (hp : period ≤ values.length) :
    (calc_ema values period).filterMap id =
      ((values.take period).sum / (period : ℚ)) ::
        emaFrom (2 / ((period : ℚ) + 1)) ((values.take period).sum / (period : ℚ))
          (values.drop period) := by
  unfold calc_ema
  rw [if_neg (by omega)]
  simp [List.filterMap_append, filterMap_id_replicate_none, filterMap_id_map_some]

theorem calc_ema_clean_length (values : List ℚ) (period : ℕ) (hp : period ≤ values.length) :
    ((calc_ema values period).filterMap id).length = values.length - period + 1 := by
  rw [calc_ema_clean_eq values period hp]
  simp [emaFrom_length]

theorem getLast_some_of_cons_map_some (a : ℚ) (l : List ℚ) :
    ∃ e : ℚ, ((some a :: l.map some) : List (Option ℚ)).getLast? = some (some e) := by
  induction l generalizing a with
  | nil => exact ⟨a, rfl⟩
  | cons b rest ih =>
    obtain ⟨e, he⟩ := ih b
    exact ⟨e, by simpa [List.getLast?_cons_cons] using he⟩

theorem calc_ema_getLast_some (values : List ℚ) (period : ℕ)
    (hp : period ≤ values.length) :
    ∃ e : ℚ, (calc_ema values period).getLast? = some (some e) := by
  unfold calc_ema
  rw [if_neg (by omega)]
  rw [List.getLast?_append_cons]
  exact getLast_some_of_cons_map_some _ _

theorem calc_tema_isSome_iff (closes : List ℚ) (period : ℕ) (hp : 1 ≤ period) :
    (calc_tema closes period).isSome = true ↔ period * 3 ≤ closes.length := by
  constructor
  · intro h
    by_contra hlen
    unfold calc_tema at h
    rw [if_pos (by omega)] at h
    simp at h
  · intro hlen
    unfold calc_tema
    rw [if_neg (by omega)]
    obtain ⟨e1, he1⟩ := calc_ema_getLast_some closes period (by omega)
    have hc1 : ((calc_ema closes period).filterMap id).length = closes.length - period + 1 :=
      calc_ema_clean_length closes period (by omega)
    obtain ⟨e2, he2⟩ :=
      calc_ema_getLast_some ((calc_ema closes period).filterMap id) period (by omega)
    have hc2 : ((calc_ema ((calc_ema closes period).filterMap id) period).filterMap id).length =
        ((calc_ema closes period).filterMap id).length - period + 1 :=
      calc_ema_clean_length _ period (by omega)
    obtain ⟨e3, he3⟩ :=
      calc_ema_getLast_some
        ((calc_ema ((calc_ema closes period).filterMap id) period).filterMap id) period
        (by omega)
    simp only [he1, he2, he3, Option.isSome_some]

/-- C7: calc_tema returns a defined value if and only if the closes series
has at least 3 * period points; with fewer it returns None (undefined),
never a default. -/
theorem calc_tema_defined_iff (closes : List ℚ) (period : ℕ) (hp : 1 ≤ period) :
    calc_tema closes period ≠ none ↔ 3 * period ≤ closes.length := by
  rw [Ne, ← Option.not_isSome_iff_eq_none, not_not, calc_tema_isSome_iff closes period hp,
    Nat.mul_comm]

/-- Witness for C7 at period 1 and a three-point series, and at a
two-point series where TEMA is undefined. -/
theorem calc_tema_defined_iff_witness :
    (1 ≤ 1 ∧ (calc_tema [101, 102, 103] 1 ≠ none ↔ 3 * 1 ≤ 3) ∧
      (calc_tema [101, 102] 1 ≠ none ↔ 3 * 1 ≤ 2)) :=
  ⟨by decide, calc_tema_defined_iff [101, 102, 103] 1 (by decide),
    calc_tema_defined_iff [101, 102] 1 (by decide)⟩

/-! Part 6: TrendTracker invariants — the cached TEMA values always agree
with a batch recomputation, and readiness is monotone. -/

/-- The cached TEMA fields and the ready flag agree with a batch
recomputation of calc_tema over the current closes. -/
def TrendTracker.Consistent (t : TrendTracker) : Prop :=
  t.tema_fast = calc_tema t.closes t.fast_period ∧
  t.tema_slow = calc_tema t.closes t.slow_period ∧
  t.ready = ((calc_tema t.closes t.fast_period).isSome &&
    (calc_tema t.closes t.slow_period).isSome)

theorem recalc_consistent (t : TrendTracker) : (TrendTracker.recalc t).Consistent :=
  ⟨rfl, rfl, rfl⟩

theorem calc_tema_nil (p : ℕ) (hp : 1 ≤ p) : calc_tema [] p = none := by
  unfold calc_tema
  rw [if_pos (by simp only [List.length_nil]; omega)]

theorem init_consistent (ci : ℚ) (f sl : ℕ) (hf : 1 ≤ f) (hs : 1 ≤ sl) :
    (TrendTracker.init ci f sl).Consistent := by
  have h1 : calc_tema ([] : List ℚ) f = none := calc_tema_nil f hf
  have h2 : calc_tema ([] : List ℚ) sl = none := calc_tema_nil sl hs
  exact ⟨h1.symm, h2.symm, by simp [TrendTracker.init, h1, h2]⟩

theorem update_price_consistent (t : TrendTracker) (p ts : ℚ) (h : t.Consistent) :
    (t.update_price p ts).Consistent := by
  unfold TrendTracker.update_price
  split_ifs with h1 h2
  · exact h
  · cases hc : t.current_candle_close with
    | none => exact h
    | some c => exact recalc_consistent _
  · exact h

theorem update_price_fields (t : TrendTracker) (p ts : ℚ) :
    (t.update_price p ts).fast_period = t.fast_period ∧
    (t.update_price p ts).slow_period = t.slow_period ∧
    (t.update_price p ts).maxlen = t.maxlen := by
  unfold TrendTracker.update_price
  split_ifs with h1 h2
  · exact ⟨rfl, rfl, rfl⟩
  · cases hc : t.current_candle_close with
    | none => exact ⟨rfl, rfl, rfl⟩
    | some c => exact ⟨rfl, rfl, rfl⟩
  · exact ⟨rfl, rfl, rfl⟩

theorem dequeAppend_length (m : ℕ) (l : List ℚ) (x : ℚ) :
    (dequeAppend m l x).length = min (l.length + 1) m := by
  simp only [dequeAppend, List.length_drop, List.length_append, List.length_cons,
    List.length_nil]
  omega

theorem update_price_closes_length (t : TrendTracker) (p ts : ℚ)
    (hlen : t.closes.length ≤ t.maxlen) :
    t.closes.length ≤ (t.update_price p ts).closes.length ∧
    (t.update_price p ts).closes.length ≤ t.maxlen := by
  unfold TrendTracker.update_price
  split_ifs with h1 h2
  · exact ⟨le_refl _, hlen⟩
  · cases hc : t.current_candle_close with
    | none => exact ⟨le_refl _, hlen⟩
    | some c =>
      constructor
      · show t.closes.length ≤ (dequeAppend t.maxlen t.closes c).length
        rw [dequeAppend_length]
        omega
      · show (dequeAppend t.maxlen t.closes c).length ≤ t.maxlen
        rw [dequeAppend_length]
        omega
  · exact ⟨le_refl _, hlen⟩

/-- The well-formedness a TrendTracker started from the constructor keeps:
cache consistency, the deque bound, and positive periods. -/
def TrendTracker.Wf (t : TrendTracker) : Prop :=
  t.Consistent ∧ t.closes.length ≤ t.maxlen ∧ 1 ≤ t.fast_period ∧ 1 ≤ t.slow_period

theorem update_price_wf (t : TrendTracker) (p ts : ℚ) (h : t.Wf) :
    (t.update_price p ts).Wf := by
  obtain ⟨hc, hl, hf, hs⟩ := h
  obtain ⟨e1, e2, e3⟩ := update_price_fields t p ts
  refine ⟨update_price_consistent t p ts hc, ?_, ?_, ?_⟩
  · rw [e3]
    exact (update_price_closes_length t p ts hl).2
  · rw [e1]
    exact hf
  · rw [e2]
    exact hs

theorem update_price_ready_mono (t : TrendTracker) (p ts : ℚ) (h : t.Wf)
    (hr : t.ready = true) : (t.update_price p ts).ready = true := by
  obtain ⟨⟨hcf, hcs, hcr⟩, hl, hf, hs⟩ := h
  rw [hcr, Bool.and_eq_true] at hr
  obtain ⟨hrf, hrs⟩ := hr
  rw [calc_tema_isSome_iff _ _ hf] at hrf
  rw [calc_tema_isSome_iff _ _ hs] at hrs
  obtain ⟨⟨_, _, hcr2⟩, hl2, hf2, hs2⟩ :=
    update_price_wf t p ts ⟨⟨hcf, hcs, hcr⟩, hl, hf, hs⟩
  rw [hcr2, Bool.and_eq_true]
  obtain ⟨e1, e2, e3⟩ := update_price_fields t p ts
  have hlen : t.closes.length ≤ (t.update_price p ts).closes.length :=
    (update_price_closes_length t p ts hl).1
  constructor
  · rw [calc_tema_isSome_iff _ _ hf2, e1]
    omega
  · rw [calc_tema_isSome_iff _ _ hs2, e2]
    omega

theorem applyTicks_consistent (t : TrendTracker) (ticks : List (ℚ × ℚ)) (h : t.Consistent) :
    (t.applyTicks ticks).Consistent := by
  induction ticks generalizing t with
  | nil => exact h
  | cons pr rest ih =>
    obtain ⟨p, ts⟩ := pr
    exact ih _ (update_price_consistent t p ts h)

theorem applyTicks_fields (t : TrendTracker) (ticks : List (ℚ × ℚ)) :
    (t.applyTicks ticks).fast_period = t.fast_period ∧
    (t.applyTicks ticks).slow_period = t.slow_period := by
  induction ticks generalizing t with
  | nil => exact ⟨rfl, rfl⟩
  | cons pr rest ih =>
    obtain ⟨p, ts⟩ := pr
    obtain ⟨a1, a2⟩ := ih (t.update_price p ts)
    obtain ⟨b1, b2, b3⟩ := update_price_fields t p ts
    exact ⟨a1.trans b1, a2.trans b2⟩

theorem applyTicks_wf (t : TrendTracker) (ticks : List (ℚ × ℚ)) (h : t.Wf) :
    (t.applyTicks ticks).Wf := by
  induction ticks generalizing t with
  | nil => exact h
  | cons pr rest ih =>
    obtain ⟨p, ts⟩ := pr
    exact ih _ (update_price_wf t p ts h)

theorem applyTicks_ready_mono (t : TrendTracker) (ticks : List (ℚ × ℚ)) (h : t.Wf)
    (hr : t.ready = true) : (t.applyTicks ticks).ready = true := by
  induction ticks generalizing t with
  | nil => exact hr
  | cons pr rest ih =>
    obtain ⟨p, ts⟩ := pr
    exact ih _ (update_price_wf t p ts h) (update_price_ready_mono t p ts h hr)

theorem init_wf (ci : ℚ) (f sl : ℕ) (hf : 1 ≤ f) (hs : 1 ≤ sl) :
    (TrendTracker.init ci f sl).Wf :=
  ⟨init_consistent ci f sl hf hs, Nat.zero_le _, hf, hs⟩

/-- C5: after any sequence of ticks, the cached tema_fast and tema_slow of
a TrendTracker equal calc_tema applied in one batch to the current closes
with the corresponding period. -/
theorem tema_incremental_eq_batch (ci : ℚ) (f sl : ℕ) (hf : 1 ≤ f) (hs : 1 ≤ sl)
    (ticks : List (ℚ × ℚ)) :
    ((TrendTracker.init ci f sl).applyTicks ticks).tema_fast =
      calc_tema ((TrendTracker.init ci f sl).applyTicks ticks).closes f ∧
    ((TrendTracker.init ci f sl).applyTicks ticks).tema_slow =
      calc_tema ((TrendTracker.init ci f sl).applyTicks ticks).closes sl := by
  obtain ⟨h1, h2, _⟩ := applyTicks_consistent _ ticks (init_consistent ci f sl hf hs)
  obtain ⟨e1, e2⟩ := applyTicks_fields (TrendTracker.init ci f sl) ticks
  rw [e1] at h1
  rw [e2] at h2
  exact ⟨h1, h2⟩

/-- Witness for C5: a concrete tracker and two ticks. -/
theorem tema_incremental_eq_batch_witness :
    (((TrendTracker.init 300 10 80).applyTicks [(5, 300000), (6, 600000)]).tema_fast =
        calc_tema
          ((TrendTracker.init 300 10 80).applyTicks [(5, 300000), (6, 600000)]).closes 10 ∧
      ((TrendTracker.init 300 10 80).applyTicks [(5, 300000), (6, 600000)]).tema_slow =
        calc_tema
          ((TrendTracker.init 300 10 80).applyTicks [(5, 300000), (6, 600000)]).closes 80) :=
  tema_incremental_eq_batch 300 10 80 (by decide) (by decide) [(5, 300000), (6, 600000)]

/-- C9: TrendTracker readiness is monotone — once ready is true after some
tick sequence, no further sequence of update_price calls makes it false. -/
theorem trend_ready_monotone (ci : ℚ) (f sl : ℕ) (hf : 1 ≤ f) (hs : 1 ≤ sl)
    (ticks1 ticks2 : List (ℚ × ℚ))
    (h : ((TrendTracker.init ci f sl).applyTicks ticks1).ready = true) :
    (((TrendTracker.init ci f sl).applyTicks ticks1).applyTicks ticks2).ready = true :=
  applyTicks_ready_mono _ ticks2 (applyTicks_wf _ ticks1 (init_wf ci f sl hf hs)) h

/-- Witness for C9: periods 1/1, four ticks make the tracker ready, one
more keeps it ready. -/
theorem trend_ready_monotone_witness :
    ((((TrendTracker.init 300 1 1).applyTicks
        [(1, 300000), (2, 600000), (3, 900000), (4, 1200000)]).applyTicks
          [(5, 1500000)]).ready = true) := by
  refine trend_ready_monotone 300 1 1 (by decide) (by decide)
    [(1, 300000), (2, 600000), (3, 900000), (4, 1200000)] [(5, 1500000)] ?_
  have hc : ((TrendTracker.init 300 1 1).applyTicks
      [(1, 300000), (2, 600000), (3, 900000), (4, 1200000)]).closes = [1, 2, 3] := by
    norm_num [TrendTracker.applyTicks, TrendTracker.update_price, TrendTracker.init,
      TrendTracker.recalc, getCandleStart, dequeAppend]
  obtain ⟨_, _, hcr⟩ := applyTicks_consistent _
    [(1, 300000), (2, 600000), (3, 900000), (4, 1200000)]
    (init_consistent 300 1 1 (by decide) (by decide))
  obtain ⟨e1, e2⟩ := applyTicks_fields (TrendTracker.init 300 1 1)
    [(1, 300000), (2, 600000), (3, 900000), (4, 1200000)]
  rw [hcr, hc, e1, e2, Bool.and_eq_true]
  constructor <;> rw [calc_tema_isSome_iff _ _ (by decide)] <;> decide

/-! Part 7: bucket classification facts (C6) and the zero-win-rate cell
of compute_table (C3). -/

theorem classify_move_eq (x : ℚ) :
    classify_move x =
      if 3/100 ≤ x ∧ x < 5/100 then some "0.03-0.05"
      else if 5/100 ≤ x ∧ x < 10/100 then some "0.05-0.10"
      else if 10/100 ≤ x ∧ x < 20/100 then some "0.10-0.20"
      else if 20/100 ≤ x ∧ x < 999 then some "0.20+"
      else none := rfl

theorem classify_elapsed_eq (s : ℚ) :
    classify_elapsed s =
      if 60 ≤ s ∧ s < 180 then some "60-180"
      else if 180 ≤ s ∧ s < 420 then some "180-420"
      else if 420 ≤ s ∧ s < 600 then some "420-600"
      else if 600 ≤ s ∧ s < 841 then some "600-840"
      else none := rfl

theorem classify_move_isSome_iff (x : ℚ) :
    (classify_move x).isSome = true ↔ 3/100 ≤ x ∧ x < 999 := by
  rw [classify_move_eq]
  split_ifs with h1 h2 h3 h4
  · simpa using ⟨h1.1, by linarith [h1.2]⟩
  · simpa using ⟨by linarith [h2.1], by linarith [h2.2]⟩
  · simpa using ⟨by linarith [h3.1], by linarith [h3.2]⟩
  · simpa using ⟨by linarith [h4.1], h4.2⟩
  · simp only [Option.isSome_none, Bool.false_eq_true, false_iff]
    rintro ⟨hl, hr⟩
    rcases lt_or_le x (5/100) with c1 | c1
    · exact h1 ⟨hl, c1⟩
    rcases lt_or_le x (10/100) with c2 | c2
    · exact h2 ⟨c1, c2⟩
    rcases lt_or_le x (20/100) with c3 | c3
    · exact h3 ⟨c2, c3⟩
    exact h4 ⟨c3, hr⟩

theorem classify_elapsed_isSome_iff (s : ℚ) :
    (classify_elapsed s).isSome = true ↔ 60 ≤ s ∧ s < 841 := by
  rw [classify_elapsed_eq]
  split_ifs with h1 h2 h3 h4
  · simpa using ⟨h1.1, by linarith [h1.2]⟩
  · simpa using ⟨by linarith [h2.1], by linarith [h2.2]⟩
  · simpa using ⟨by linarith [h3.1], by linarith [h3.2]⟩
  · simpa using ⟨by linarith [h4.1], h4.2⟩
  · simp only [Option.isSome_none, Bool.false_eq_true, false_iff]
    rintro ⟨hl, hr⟩
    rcases lt_or_le s 180 with c1 | c1
    · exact h1 ⟨hl, c1⟩
    rcases lt_or_le s 420 with c2 | c2
    · exact h2 ⟨c1, c2⟩
    rcases lt_or_le s 600 with c3 | c3
    · exact h3 ⟨c2, c3⟩
    exact h4 ⟨c3, hr⟩

theorem classify_move_sound (x : ℚ) (lo hi : ℚ) (lab : String)
    (hmem : (lo, hi, lab) ∈ MOVE_BINS) (h : classify_move x = some lab) :
    lo ≤ x ∧ x < hi := by
  rw [classify_move_eq] at h
  fin_cases hmem <;> split_ifs at h with h1 h2 h3 h4 <;> simp_all

theorem classify_elapsed_sound (s : ℚ) (lo hi : ℚ) (lab : String)
    (hmem : (lo, hi, lab) ∈ ELAPSED_BINS) (h : classify_elapsed s = some lab) :
    lo ≤ s ∧ s < hi := by
  rw [classify_elapsed_eq] at h
  fin_cases hmem <;> split_ifs at h with h1 h2 h3 h4 <;> simp_all

theorem bins_disjoint (bins : List (ℚ × ℚ × String)) (x : ℚ)
    (hbins : bins = MOVE_BINS ∨ bins = ELAPSED_BINS)
    (lo hi : ℚ) (lab : String) (lo2 hi2 : ℚ) (lab2 : String)
    (h1 : (lo, hi, lab) ∈ bins) (h2 : (lo2, hi2, lab2) ∈ bins)
    (ha : lo ≤ x) (hb : x < hi) (hc : lo2 ≤ x) (hd : x < hi2) : lab = lab2 := by
  rcases hbins with rfl | rfl <;>
    [skip; skip] <;>
    simp only [MOVE_BINS, ELAPSED_BINS, List.mem_cons, List.not_mem_nil, or_false,
      Prod.mk.injEq] at h1 h2 <;>
    rcases h1 with ⟨rfl, rfl, rfl⟩ | ⟨rfl, rfl, rfl⟩ | ⟨rfl, rfl, rfl⟩ | ⟨rfl, rfl, rfl⟩ <;>
    rcases h2 with ⟨rfl, rfl, rfl⟩ | ⟨rfl, rfl, rfl⟩ | ⟨rfl, rfl, rfl⟩ | ⟨rfl, rfl, rfl⟩ <;>
    first
      | rfl
      | (exfalso; linarith)

/-- C6 counterexample: the highest move bin is capped at 999, so an
abs-move of 999 maps to no bucket at all, and an elapsed of 840 does map
to the 600-840 bucket, so the elapsed buckets do not span only [60,840). -/
theorem classify_bounds_cex :
    classify_move 999 = none ∧ classify_elapsed 840 = some "600-840" := by
  rw [classify_move_eq, classify_elapsed_eq]
  norm_num

/-- C6 (amended): move and elapsed classification partition their domains
with half-open buckets and no overlap at boundaries (0.05 maps to
[0.05,0.10)), but the highest move bucket is [0.20, 999), not unbounded —
abs moves of 999 or more map to no bucket — and the elapsed buckets span
[60, 841), so 840 still maps to the last bucket. -/
theorem classify_partition (x s : ℚ) :
    ((classify_move x).isSome = true ↔ 3/100 ≤ x ∧ x < 999) ∧
    (∀ lo hi : ℚ, ∀ lab : String, (lo, hi, lab) ∈ MOVE_BINS →
      classify_move x = some lab → lo ≤ x ∧ x < hi) ∧
    (∀ lo hi : ℚ, ∀ lab : String, ∀ lo2 hi2 : ℚ, ∀ lab2 : String,
      (lo, hi, lab) ∈ MOVE_BINS → (lo2, hi2, lab2) ∈ MOVE_BINS →
      lo ≤ x → x < hi → lo2 ≤ x → x < hi2 → lab = lab2) ∧
    classify_move (5/100) = some "0.05-0.10" ∧
    ((classify_elapsed s).isSome = true ↔ 60 ≤ s ∧ s < 841) ∧
    (∀ lo hi : ℚ, ∀ lab : String, (lo, hi, lab) ∈ ELAPSED_BINS →
      classify_elapsed s = some lab → lo ≤ s ∧ s < hi) ∧
    (∀ lo hi : ℚ, ∀ lab : String, ∀ lo2 hi2 : ℚ, ∀ lab2 : String,
      (lo, hi, lab) ∈ ELAPSED_BINS → (lo2, hi2, lab2) ∈ ELAPSED_BINS →
      lo ≤ s → s < hi → lo2 ≤ s → s < hi2 → lab = lab2) := by
  refine ⟨classify_move_isSome_iff x, ?_, ?_, ?_, classify_elapsed_isSome_iff s, ?_, ?_⟩
  · intro lo hi lab hmem h
    exact classify_move_sound x lo hi lab hmem h
  · intro lo hi lab lo2 hi2 lab2 h1 h2 ha hb hc hd
    exact bins_disjoint MOVE_BINS x (Or.inl rfl) lo hi lab lo2 hi2 lab2 h1 h2 ha hb hc hd
  · rw [classify_move_eq]
    norm_num
  · intro lo hi lab hmem h
    exact classify_elapsed_sound s lo hi lab hmem h
  · intro lo hi lab lo2 hi2 lab2 h1 h2 ha hb hc hd
    exact bins_disjoint ELAPSED_BINS s (Or.inr rfl) lo hi lab lo2 hi2 lab2 h1 h2 ha hb hc hd

/-- C3: code bug — a bucket with one observation and zero wins gets
win_rate None (because a 0.0 win rate is falsy in the Python cell
expression), while the spec says win_rate = wins/total whenever
total > 0 and null only for empty cells. -/
theorem compute_table_zero_wins_null_cell :
    compute_table none [⟨4/100, 100, false⟩] =
      [(("0.03-0.05", "60-180"), ⟨none, 1⟩)] := by
  simp only [compute_table, List.foldl, classify_move_eq, classify_elapsed_eq]
  norm_num [bumpBucket]

/-! Part 8: position monitoring, sell ceiling, fill confirmation,
circuit breaker, and the TEMA exit cushion. -/

/-- C10: the forced time-based exit is checked before the
monitor-interval throttle — with remaining time at or below
exit_before_end the sell path is taken no matter how recently the last
price check ran, and the throttle only gates the later price checks. -/
theorem forced_exit_before_throttle (m : MonitorCtx) :
    (m.remaining ≤ m.exit_before_end → monitorPosition m = MonitorStep.sellForcedExit) ∧
    (m.exit_before_end < m.remaining → m.now - m.last_monitor_ts < m.monitor_interval →
      monitorPosition m = MonitorStep.throttled) := by
  constructor
  · intro h
    unfold monitorPosition
    rw [if_pos h]
  · intro h1 h2
    unfold monitorPosition
    rw [if_neg (not_le.mpr h1), if_pos h2]

/-- Witness for C10: the forced exit fires although the throttle window is
still open (now - last = 1 < interval = 15). -/
theorem forced_exit_before_throttle_witness :
    monitorPosition ⟨10, 60, 1000, 999, 15, 1/2, 1/2, 15/100, 1/10⟩ =
      MonitorStep.sellForcedExit :=
  (forced_exit_before_throttle ⟨10, 60, 1000, 999, 15, 1/2, 1/2, 15/100, 1/10⟩).1
    (by norm_num)

/-- C8: an invocation of the sell path beyond the fixed attempt ceiling
submits no order and force-marks the position exited, with zero exit P&L
and the reason suffixed _failed, so the retry loop terminates. -/
theorem sell_gave_up_terminal (sell_attempts : ℕ) (reason : String)
    (h : MAX_SELL_ATTEMPTS ≤ sell_attempts) :
    sellPositionGuard sell_attempts reason =
      SellStep.gaveUp true (reason ++ "_failed") 0 (sell_attempts + 1) := by
  unfold sellPositionGuard
  rw [if_pos (Nat.lt_succ_of_le h)]

/-- Witness for C8: the fourth invocation (after 3 failed attempts) gives
up with zero P&L. -/
theorem sell_gave_up_terminal_witness :
    sellPositionGuard 3 "stop_loss" =
      SellStep.gaveUp true ("stop_loss" ++ "_failed") 0 (3 + 1) :=
  sell_gave_up_terminal 3 "stop_loss" (by decide)

/-- C1 counterexample: a poll response with size_matched = 5 and no
matched-price field; _confirm_fill returns the submitted limit price 3/5
as the fill price, so the returned pair is not always made of
exchange-matched values. -/
theorem confirm_fill_limit_price_cex :
    confirmFill 0 [some ⟨5, 20, none, none, 3/5, "LIVE"⟩] = (5, 3/5) ∧
    (⟨5, 20, none, none, 3/5, "LIVE"⟩ : OrderResp).average_matched_price = none ∧
    (⟨5, 20, none, none, 3/5, "LIVE"⟩ : OrderResp).matched_price = none ∧
    (⟨5, 20, none, none, 3/5, "LIVE"⟩ : OrderResp).price = 3/5 := by
  refine ⟨?_, rfl, rfl, rfl⟩
  simp only [confirmFill]
  norm_num [extractPrice, orTruthy]

/-- C1 (amended): when a poll observes size_matched > 0, _confirm_fill
returns exactly the reported matched size (never original_size) together
with extractPrice: the reported average matched price when present and
nonzero, else the matched_price field, falling back to the submitted
limit price only when neither is reported. -/
theorem confirm_fill_reported_values (attempts : ℕ) (o : OrderResp)
    (rest : List (Option OrderResp)) (h : 0 < o.size_matched) :
    confirmFill attempts (some o :: rest) = (o.size_matched, extractPrice o) ∧
    (∀ p : ℚ, o.average_matched_price = some p → p ≠ 0 → extractPrice o = p) ∧
    (o.average_matched_price = none → o.matched_price = none →
      extractPrice o = o.price) := by
  refine ⟨?_, ?_, ?_⟩
  · simp only [confirmFill]
    rw [if_pos h]
  · intro p hp hp0
    simp [extractPrice, orTruthy, hp, hp0]
  · intro h1 h2
    simp [extractPrice, orTruthy, h1, h2]

/-- The concrete response of the C1 witness. -/
def wResp : OrderResp := ⟨2, 10, some (1/2), none, 3/5, "LIVE"⟩

/-- Witness for C1 at a concrete partially filled order. -/
theorem confirm_fill_reported_values_witness :
    (confirmFill 0 [some wResp] = (wResp.size_matched, extractPrice wResp) ∧
      (∀ p : ℚ, wResp.average_matched_price = some p → p ≠ 0 → extractPrice wResp = p) ∧
      (wResp.average_matched_price = none → wResp.matched_price = none →
        extractPrice wResp = wResp.price)) :=
  confirm_fill_reported_values 0 wResp [] (by norm_num [wResp])

theorem onTradeActions_of_breaker (cfg : TraderCfg) (s : TraderRisk) (iv : TickView)
    (h : s.circuit_breaker = true) :
    onTradeActions cfg s iv = monitorActions iv := by
  unfold onTradeActions
  rw [if_pos h]

theorem evaluate_not_mem_monitorActions (iv : TickView) (sig str : String) :
    TickAction.evaluate sig str ∉ monitorActions iv := by
  unfold monitorActions
  split_ifs <;> simp

theorem resolveStep_breaker_mono (m : ℚ) (s : TraderRisk) (pnl : ℚ)
    (h : s.circuit_breaker = true) : (resolveStep m s pnl).circuit_breaker = true := by
  simp [resolveStep, h]

theorem runEvents_breaker (cfg : TraderCfg) (s : TraderRisk) (events : List TraderEvent)
    (h : s.circuit_breaker = true) :
    (runEvents cfg s events).1.circuit_breaker = true ∧
    ∀ sig str : String, TickAction.evaluate sig str ∉ (runEvents cfg s events).2 := by
  induction events generalizing s with
  | nil =>
    refine ⟨h, ?_⟩
    intro sig str
    simp [runEvents]
  | cons e rest ih =>
    cases e with
    | tick iv =>
      obtain ⟨h1, h2⟩ := ih s h
      refine ⟨h1, ?_⟩
      intro sig str hmem
      rw [show runEvents cfg s (TraderEvent.tick iv :: rest) =
          ((runEvents cfg s rest).1, onTradeActions cfg s iv ++ (runEvents cfg s rest).2)
          from rfl] at hmem
      rcases List.mem_append.mp hmem with hm | hm
      · rw [onTradeActions_of_breaker cfg s iv h] at hm
        exact evaluate_not_mem_monitorActions iv sig str hm
      · exact h2 sig str hm
    | resolve pnl =>
      exact ih _ (resolveStep_breaker_mono _ s pnl h)

/-- C2: once the circuit breaker is set it is never cleared, no entry
evaluation (and hence no entry order) is triggered by any later event,
monitoring of an open unexited position still proceeds on every tick, and
any resolution that takes session P&L to -max_session_loss or beyond sets
the breaker. -/
theorem circuit_breaker_one_way (cfg : TraderCfg) (s : TraderRisk)
    (events : List TraderEvent) (h : s.circuit_breaker = true) :
    (runEvents cfg s events).1.circuit_breaker = true ∧
    (∀ sig str : String, TickAction.evaluate sig str ∉ (runEvents cfg s events).2) ∧
    (∀ iv : TickView, iv.trade_taken = true → iv.has_trade = true → iv.exited = false →
      TickAction.monitor ∈ onTradeActions cfg s iv) ∧
    (∀ s2 : TraderRisk, ∀ pnl : ℚ,
      (resolveStep cfg.max_session_loss s2 pnl).session_pnl ≤ -cfg.max_session_loss →
      (resolveStep cfg.max_session_loss s2 pnl).circuit_breaker = true) := by
  obtain ⟨h1, h2⟩ := runEvents_breaker cfg s events h
  refine ⟨h1, h2, ?_, ?_⟩
  · intro iv htt hht hex
    rw [onTradeActions_of_breaker cfg s iv h]
    simp [monitorActions, htt, hht, hex]
  · intro s2 pnl hp
    simp only [resolveStep] at hp ⊢
    rw [Bool.or_eq_true]
    right
    rw [decide_eq_true_eq]
    exact hp

/-- The concrete state and tick of the C2 witness: breaker already set,
one open position. -/
def sW : TraderRisk := ⟨true, -20, false, false⟩

/-- The concrete configuration of the C2 witness. -/
def cfgW : TraderCfg := ⟨180, 660, 1/10, 1/4, 20⟩

/-- The concrete tick of the C2 witness: an open unexited position. -/
def ivW : TickView := ⟨true, true, false, 300, 1/2, -1⟩

/-- Witness for C2: with the breaker set, a tick and a losing resolution
keep the breaker set, trigger no evaluation, and the open position is
still monitored. -/
theorem circuit_breaker_one_way_witness :
    ((runEvents cfgW sW [TraderEvent.tick ivW, TraderEvent.resolve (-5)]).1.circuit_breaker
        = true ∧
      TickAction.monitor ∈ onTradeActions cfgW sW ivW) :=
  ⟨(circuit_breaker_one_way cfgW sW [TraderEvent.tick ivW, TraderEvent.resolve (-5)] rfl).1,
    (circuit_breaker_one_way cfgW sW [TraderEvent.tick ivW, TraderEvent.resolve (-5)]
      rfl).2.2.1 ivW rfl rfl rfl⟩

/-- C4 counterexample: after a cushion skip the last-seen-trend marker
still holds the pre-crossing trend, and the same stale crossing is
re-checked and fires on the very next tick (the 1-minute trend never
changed again), contradicting re-arming on a next crossing only. -/
theorem tema_exit_rearm_cex :
    (temaExitStep "Up" ⟨false, some "Up"⟩ ⟨"Down", 700, 2⟩).exited = false ∧
    (temaExitStep "Up" ⟨false, some "Up"⟩ ⟨"Down", 700, 2⟩).prev_exit_tema = some "Up" ∧
    (temaExitStep "Up" (temaExitStep "Up" ⟨false, some "Up"⟩ ⟨"Down", 700, 2⟩)
        ⟨"Down", 710, 0⟩).exited = true := by
  have h0 : (0:ℚ) < 2 := by norm_num
  have ha : |(2:ℚ)| = 2 := abs_of_pos h0
  have h3 : (5:ℚ)/100 < 2 := by norm_num
  have h4 : ¬((5:ℚ)/100 < 0) := by norm_num
  have h5 : (600:ℚ) ≤ 700 := by norm_num
  have h6 : (600:ℚ) ≤ 710 := by norm_num
  simp [temaExitStep, cushionOf, EXIT_MONITOR_START, EXIT_CUSHION_PCT,
    h0, ha, h3, h4, h5, h6]

/-- C4 (amended): when a crossing against the position is detected but the
unrealized gain exceeds the cushion threshold, the exit is deferred and
the last-seen-trend marker is left unchanged (it does not advance past
the skipped crossing), so the pending crossing is re-checked on every
subsequent tick and fires as soon as the cushion no longer exceeds the
threshold, without any new crossing. -/
theorem tema_exit_cushion_defers_and_rechecks (entry_dir : String) (st : EntryState)
    (t1 t2 : ObsTick)
    (hex : st.exited = false)
    (hel1 : EXIT_MONITOR_START ≤ t1.elapsed)
    (hcross : st.prev_exit_tema ≠ none ∧ t1.exit_trend ≠ "Neutral" ∧
      some t1.exit_trend ≠ st.prev_exit_tema)
    (hagainst : (entry_dir = "Up" ∧ t1.exit_trend = "Down") ∨
      (entry_dir = "Down" ∧ t1.exit_trend = "Up"))
    (hcush : EXIT_CUSHION_PCT < cushionOf entry_dir t1.move_pct)
    (hel2 : EXIT_MONITOR_START ≤ t2.elapsed)
    (hsame : t2.exit_trend = t1.exit_trend)
    (hcush2 : cushionOf entry_dir t2.move_pct ≤ EXIT_CUSHION_PCT) :
    (temaExitStep entry_dir st t1).exited = false ∧
    (temaExitStep entry_dir st t1).prev_exit_tema = st.prev_exit_tema ∧
    (temaExitStep entry_dir (temaExitStep entry_dir st t1) t2).exited = true := by
  have hstep1 : temaExitStep entry_dir st t1 = st := by
    unfold temaExitStep
    rw [if_pos ⟨by simp [hex], hel1⟩, if_pos ⟨hcross, hagainst⟩, if_pos hcush]
  refine ⟨by rw [hstep1]; exact hex, by rw [hstep1], ?_⟩
  rw [hstep1]
  unfold temaExitStep
  rw [if_pos ⟨by simp [hex], hel2⟩,
    if_pos ⟨⟨hcross.1, by rw [hsame]; exact hcross.2.1, by rw [hsame]; exact hcross.2.2⟩,
      by rw [hsame]; exact hagainst⟩,
    if_neg (not_lt.mpr hcush2)]

/-- Witness for C4: a deferred crossing at a cushion of 3 percent, firing
on the next tick once the cushion is gone. -/
theorem tema_exit_cushion_defers_and_rechecks_witness :
    ((temaExitStep "Up" ⟨false, some "Up"⟩ ⟨"Down", 650, 3⟩).exited = false ∧
      (temaExitStep "Up" ⟨false, some "Up"⟩ ⟨"Down", 650, 3⟩).prev_exit_tema =
        (⟨false, some "Up"⟩ : EntryState).prev_exit_tema ∧
      (temaExitStep "Up" (temaExitStep "Up" ⟨false, some "Up"⟩ ⟨"Down", 650, 3⟩)
          ⟨"Down", 660, 0⟩).exited = true) := by
  have h0 : (0:ℚ) < 3 := by norm_num
  have hc3 : cushionOf "Up" 3 = 3 := by simp [cushionOf, h0, abs_of_pos h0]
  have hc0 : cushionOf "Up" 0 = 0 := by simp [cushionOf]
  exact tema_exit_cushion_defers_and_rechecks "Up" ⟨false, some "Up"⟩ ⟨"Down", 650, 3⟩
    ⟨"Down", 660, 0⟩ rfl (by norm_num [EXIT_MONITOR_START])
    ⟨by simp, by simp, by simp⟩ (Or.inl ⟨rfl, rfl⟩)
    (by rw [hc3]; norm_num [EXIT_CUSHION_PCT])
    (by norm_num [EXIT_MONITOR_START]) rfl
    (by rw [hc0]; norm_num [EXIT_CUSHION_PCT])

end PolymarketBot
